import Mathlib

/-!
Verification development for the dev-events repository.

The repository is a server-rendered event-listing application. This file
embeds the parts of its code relevant to the frozen claims:

* `src/database/mongodb.ts` — the memoised mongoose connection (`connectDB`);
* the Event model (schema validators and the `pre('save')` hook generating
  the slug and normalising date/time) and its unique slug index;
* the Booking model (email setters/validator, the `pre('save')` hook
  checking the referenced event exists);
* `src/lib/validation/events.ts` — the zod schemas (`slugSchema`,
  `createEventSchema`, `imageFileSchema`);
* `src/lib/actions/events.ts` — the server actions `getAllEvents`,
  `getEventBySlug`, `getSimilarEventsBySlug`, `createEvent`,
  `createEventDirect`.

Strings are modelled over their character lists; the JavaScript string
operations used by the code (`toLowerCase`, `trim`, the regexes) are
modelled for ASCII text, which is the alphabet all schemas and hooks in
this code operate on.  Asynchronous effects (the database, the Cloudinary
upload) are modelled by passing their outcomes as explicit parameters, and
a thrown JavaScript exception is modelled as the error branch of the
corresponding outcome; each action is a total function into its structured
result type, mirroring the catch-all `try/catch` in the source.
-/

deriving instance DecidableEq for Except

namespace DevEvents

/-! ## JavaScript character and string primitives -/

/-- Whitespace characters of the ASCII fragment of JavaScript `\s`
(space, tab, line feed, carriage return, vertical tab, form feed). -/
def isSpaceJS (c : Char) : Bool :=
  c.toNat = 32 || c.toNat = 9 || c.toNat = 10 || c.toNat = 13 ||
  c.toNat = 11 || c.toNat = 12

/-- ASCII action of JavaScript `String.prototype.toLowerCase` on one character. -/
def jsLowerChar (c : Char) : Char :=
  if 65 ≤ c.toNat ∧ c.toNat ≤ 90 then Char.ofNat (c.toNat + 32) else c

/-- JavaScript `toLowerCase` on a string (ASCII action). -/
def jsToLower (s : String) : String :=
  ⟨s.data.map jsLowerChar⟩

/-- Remove leading and trailing whitespace from a character list,
modelling JavaScript `String.prototype.trim`. -/
def jsTrimList (l : List Char) : List Char :=
  ((l.dropWhile isSpaceJS).reverse.dropWhile isSpaceJS).reverse

/-- JavaScript `trim` on a string. -/
def jsTrim (s : String) : String :=
  ⟨jsTrimList s.data⟩

/-- Character class `\w` of JavaScript regexes: ASCII letters, digits and
underscore. -/
def isWordCharJS (c : Char) : Bool :=
  (65 ≤ c.toNat && c.toNat ≤ 90) || (97 ≤ c.toNat && c.toNat ≤ 122) ||
  (48 ≤ c.toNat && c.toNat ≤ 57) || c.toNat = 95

/-! ## Slug generation (Event `pre('save')` hook)

The hook lowercases the title, removes the characters outside `\w`, `\s`
and hyphen, replaces whitespace runs by a hyphen, replaces runs of two or
more hyphens by a single hyphen, and trims the result.
-/

/-- Characters kept by `replace(/[^\w\s-]/g, "")`. -/
def slugKeep (c : Char) : Bool :=
  isWordCharJS c || isSpaceJS c || c = '-'

/-- Replace every maximal run of characters satisfying `p` by the single
character `rep`; the boolean argument records whether the previous
character was part of such a run. -/
def collapseRunsAux (p : Char → Bool) (rep : Char) : Bool → List Char → List Char
  | _, [] => []
  | inRun, c :: rest =>
    if p c then
      if inRun then collapseRunsAux p rep true rest
      else rep :: collapseRunsAux p rep true rest
    else c :: collapseRunsAux p rep false rest

/-- Replace every maximal run of characters satisfying `p` by `rep`,
modelling the hook's global replacements of whitespace runs (`\s+`) and of
runs of two or more hyphens (a run of a single hyphen is left unchanged by
the hyphen replacement, which is also what collapsing to a single `rep`
does). -/
def collapseRuns (p : Char → Bool) (rep : Char) (l : List Char) : List Char :=
  collapseRunsAux p rep false l

/-- Slug generation performed by the Event `pre('save')` hook on the
(title) field. -/
def slugify (title : String) : String :=
  ⟨jsTrimList (collapseRuns (fun c => c = '-') '-'
    (collapseRuns isSpaceJS '-'
      ((title.data.map jsLowerChar).filter slugKeep)))⟩

/-! ## The `slugSchema` regex `^[a-z0-9]+(?:-[a-z0-9]+)*$` -/

/-- Characters `[a-z0-9]` of the slug regex. -/
def slugChar (c : Char) : Bool :=
  (97 ≤ c.toNat && c.toNat ≤ 122) || (48 ≤ c.toNat && c.toNat ≤ 57)

/-- Deterministic automaton for `^[a-z0-9]+(?:-[a-z0-9]+)*$`.  The boolean
state records whether the previous character was alphanumeric (so the word
may end or a hyphen may follow). -/
def slugDFA : List Char → Bool → Bool
  | [], seen => seen
  | c :: rest, seen =>
    if slugChar c then slugDFA rest true
    else if seen && c = '-' then slugDFA rest false
    else false

/-- Full-string match of the slug regex. -/
def slugRegexMatch (s : String) : Bool :=
  slugDFA s.data false

/-- Success predicate of `slugSchema.parse`: `min(1)`, `max(200)` and the
regex (the final `.trim()` transform is the identity on matching strings,
which contain no whitespace). -/
def slugValid (s : String) : Bool :=
  1 ≤ s.length && s.length ≤ 200 && slugRegexMatch s

/-- Normalisation `slug.toLowerCase().trim()` applied by `getEventBySlug`
and `getSimilarEventsBySlug` before parsing. -/
def normalizeSlugInput (slug : String) : String :=
  jsTrim (jsToLower slug)

/-! ## The Booking email regex `/^[^\s@]+@[^\s@]+\.[^\s@]+$/` -/

/-- Characters admitted by `[^\s@]`. -/
def emailChar (c : Char) : Bool :=
  !(isSpaceJS c) && c ≠ '@'

/-- Split a list at the first occurrence of `c`, returning the parts
before and after it. -/
def splitAtFirst (c : Char) : List Char → Option (List Char × List Char)
  | [] => none
  | x :: rest =>
    if x = c then some ([], rest)
    else
      match splitAtFirst c rest with
      | some (a, b) => some (x :: a, b)
      | none => none

/-- Helper for `hasInnerDot`: is some non-final element a `'.'`? -/
def hasInnerDotTail : List Char → Bool
  | [] => false
  | [_] => false
  | c :: rest => c = '.' || hasInnerDotTail rest

/-- Does the list contain a `'.'` that is neither its first nor its last
element?  This is full-string matching of `[^\s@]+\.[^\s@]+` restricted to
lists already known to consist of `[^\s@]` characters. -/
def hasInnerDot : List Char → Bool
  | [] => false
  | _ :: rest => hasInnerDotTail rest

/-- Full-string match of the Booking email validator regex
`/^[^\s@]+@[^\s@]+\.[^\s@]+$/`. -/
def emailTest (s : String) : Bool :=
  match splitAtFirst '@' s.data with
  | none => false
  | some (lpart, dpart) =>
    !lpart.isEmpty && lpart.all emailChar && dpart.all emailChar && hasInnerDot dpart

/-! ## Structured action results (`src/lib/types/actions.ts`) -/

/-- Error codes of the `ActionResult` discriminated union. -/
inductive ErrCode
  | VALIDATION_ERROR
  | NOT_FOUND
  | UNAUTHORIZED
  | CONFLICT
  | UNKNOWN
  deriving DecidableEq

/-- Discriminated union `ActionResult<T>`: either `ok: true` with data, or
`ok: false` with a code and a message. -/
inductive ActionResult (α : Type) where
  | ok (data : α)
  | err (code : ErrCode) (message : String)
  deriving DecidableEq

/-- Error code of a result, if it is a failure. -/
def codeOf {α : Type} : ActionResult α → Option ErrCode
  | .ok _ => none
  | .err c _ => some c

/-- Codes the spec allows a failure to carry. -/
def allowedCode (c : ErrCode) : Prop :=
  c = .VALIDATION_ERROR ∨ c = .NOT_FOUND ∨ c = .CONFLICT ∨ c = .UNKNOWN

/-- A result is either a success or a failure whose code is one of
`VALIDATION_ERROR`, `NOT_FOUND`, `CONFLICT`, `UNKNOWN`. -/
def resCodeOk {α : Type} : ActionResult α → Prop
  | .ok _ => True
  | .err c _ => allowedCode c

/-! ## Stored Event documents and the Event save pipeline

A mongoose `Event.create` runs, in order: the field setters (at
assignment), schema validation (`required`, the `enum` on `mode`, the
non-empty checks on `agenda`/`tags`), the user `pre('save')` hook (slug
generation, date normalisation, time format check), and finally the write,
which fails with an `E11000` duplicate key error when the unique index on
`slug` is violated.
-/

/-- A persisted Event document. -/
structure StoredEvent where
  id : Nat
  title : String
  slug : String
  description : String
  overview : String
  image : String
  venue : String
  location : String
  date : String
  time : String
  mode : String
  audience : String
  agenda : List String
  organizer : String
  tags : List String
  createdAt : Nat
  deriving DecidableEq

/-- Field values handed to `Event.create` (the slug is generated by the
hook, the timestamps by mongoose). -/
structure EventDoc where
  title : String
  description : String
  overview : String
  image : String
  venue : String
  location : String
  date : String
  time : String
  mode : String
  audience : String
  agenda : List String
  organizer : String
  tags : List String
  deriving DecidableEq

/-- Schema setters applied at assignment: `trim` on the text fields and
`lowercase` on `mode` (no setters on `date`, `time`, `agenda`, `tags`). -/
def applySetters (d : EventDoc) : EventDoc :=
  { d with
    title := jsTrim d.title
    description := jsTrim d.description
    overview := jsTrim d.overview
    image := jsTrim d.image
    venue := jsTrim d.venue
    location := jsTrim d.location
    mode := jsToLower d.mode
    audience := jsTrim d.audience
    organizer := jsTrim d.organizer }

/-- Mongoose schema validation of an Event document: `required` on every
field (which rejects the empty string), the `enum` on `mode`, and the
non-emptiness validators on `agenda` and `tags`. -/
def mongooseEventValid (d : EventDoc) : Bool :=
  d.title ≠ "" && d.description ≠ "" && d.overview ≠ "" && d.image ≠ "" &&
  d.venue ≠ "" && d.location ≠ "" && d.date ≠ "" && d.time ≠ "" &&
  (d.mode = "online" || d.mode = "offline" || d.mode = "hybrid") &&
  d.audience ≠ "" && !d.agenda.isEmpty && d.organizer ≠ "" && !d.tags.isEmpty

/-- Numeric value of an ASCII digit. -/
def digitVal (c : Char) : Option Nat :=
  if 48 ≤ c.toNat ∧ c.toNat ≤ 57 then some (c.toNat - 48) else none

/-- Parse a string of the exact shape `YYYY-MM-DD` into year, month, day. -/
def parseIsoDate (s : String) : Option (Nat × Nat × Nat) :=
  match s.data with
  | [y1, y2, y3, y4, h1, m1, m2, h2, d1, d2] =>
    if h1 = '-' ∧ h2 = '-' then
      match digitVal y1, digitVal y2, digitVal y3, digitVal y4,
            digitVal m1, digitVal m2, digitVal d1, digitVal d2 with
      | some a, some b, some c, some d, some e, some f, some g, some h =>
        some (a * 1000 + b * 100 + c * 10 + d, e * 10 + f, g * 10 + h)
      | _, _, _, _, _, _, _, _ => none
    else none
  | _ => none

/-- Gregorian leap year test. -/
def isLeapYear (y : Nat) : Bool :=
  (y % 4 = 0 && y % 100 ≠ 0) || y % 400 = 0

/-- Days in a month. -/
def daysInMonth (y m : Nat) : Nat :=
  if m = 2 then (if isLeapYear y then 29 else 28)
  else if m = 4 || m = 6 || m = 9 || m = 11 then 30
  else 31

/-- Chronological key of a `YYYY-MM-DD` string under JavaScript
`new Date(...)` ISO parsing: `some` exactly when the string parses to a
valid date, and monotone in calendar order.  All date strings reaching the
save pipeline through the validated actions have this shape. -/
def jsDateKey (s : String) : Option Nat :=
  match parseIsoDate s with
  | some (y, m, d) =>
    if 1 ≤ m ∧ m ≤ 12 ∧ 1 ≤ d ∧ d ≤ daysInMonth y m then
      some (y * 10000 + m * 100 + d)
    else none
  | none => none

/-- Date normalisation of the `pre('save')` hook: an unparseable date is
an error; a valid `YYYY-MM-DD` string is its own ISO `YYYY-MM-DD`
rendering, so normalisation is the identity on it. -/
def jsDateNorm (s : String) : Option String :=
  match jsDateKey s with
  | some _ => some s
  | none => none

/-- Full-string match of the time regex shared by `timeSchema` and the
`pre('save')` hook: one or two hour digits (`0`-`19` via `[0-1]?[0-9]`, or
`20`-`23`), a colon, and minutes `[0-5][0-9]`. -/
def timeRegexTest (s : String) : Bool :=
  match s.data with
  | [h, c, m1, m2] =>
    c = ':' && (48 ≤ h.toNat && h.toNat ≤ 57) &&
    (48 ≤ m1.toNat && m1.toNat ≤ 53) && (48 ≤ m2.toNat && m2.toNat ≤ 57)
  | [h1, h2, c, m1, m2] =>
    c = ':' &&
    ((h1 = '0' || h1 = '1') && (48 ≤ h2.toNat && h2.toNat ≤ 57) ||
      h1 = '2' && (48 ≤ h2.toNat && h2.toNat ≤ 51)) &&
    (48 ≤ m1.toNat && m1.toNat ≤ 53) && (48 ≤ m2.toNat && m2.toNat ≤ 57)
  | _ => false

/-- Failure modes of `Event.create`. -/
inductive EventSaveErr
  | validation
  | badDate
  | badTime
  | duplicate
  deriving DecidableEq

/-- Save a new Event document: setters, schema validation, the
`pre('save')` hook (slug generation, date normalisation, time check) and
the unique-slug index, in source order.  `freshId` and `now` stand for the
generated `_id` and the `createdAt` timestamp. -/
def eventSave (db : List StoredEvent) (doc : EventDoc) (freshId now : Nat) :
    Except EventSaveErr StoredEvent :=
  let d := applySetters doc
  if mongooseEventValid d = false then .error .validation
  else
    let slug := slugify d.title
    match jsDateNorm d.date with
    | none => .error .badDate
    | some nd =>
      if timeRegexTest d.time = false then .error .badTime
      else if db.any (fun e => e.slug == slug) then .error .duplicate
      else .ok ⟨freshId, d.title, slug, d.description, d.overview, d.image,
        d.venue, d.location, nd, d.time, d.mode, d.audience, d.agenda,
        d.organizer, d.tags, now⟩

/-! ## Zod schemas (`src/lib/validation/events.ts`)

A zod string schema with `.min`/`.max` checks followed by a `.trim()`
transform checks the length of the raw value and then returns the trimmed
value (the transform runs after the checks).  `formData.get` values that
are not strings fail `z.string()`; they are modelled as `none`.
-/

/-- A `z.string().min(lo).max(hi).trim()` schema applied to a form value. -/
def zodStr (lo hi : Nat) : Option String → Option String
  | none => none
  | some s => if lo ≤ s.length ∧ s.length ≤ hi then some (jsTrim s) else none

/-- The `dateSchema`: format regex `YYYY-MM-DD`, then the refinement
`new Date(date) >= today` where `today` is the current date key (an invalid
date parses to `NaN`, which fails the comparison). -/
def zodDate (today : Nat) : Option String → Option String
  | none => none
  | some s =>
    match jsDateKey s with
    | some k => if (parseIsoDate s).isSome ∧ today ≤ k then some s else none
    | none => none

/-- The `timeSchema`: the `HH:MM` regex. -/
def zodTime : Option String → Option String
  | none => none
  | some s => if timeRegexTest s then some s else none

/-- The `eventModeSchema` enum. -/
def zodMode : Option String → Option String
  | none => none
  | some s =>
    if s = "online" ∨ s = "offline" ∨ s = "hybrid" then some s else none

/-- A JSON value as far as the array schemas inspect it: a string, or
anything else. -/
inductive JVal
  | s (v : String)
  | other
  deriving DecidableEq

/-- Outcome of `JSON.parse` on a form field: a JSON array, some other JSON
value, or a thrown `SyntaxError`. -/
inductive JParse
  | arr (elems : List JVal)
  | nonArr
  | bad
  deriving DecidableEq

/-- Check every element is a string of length at least one
(`z.array(z.string().min(1))` element checks). -/
def asNonEmptyStrings : List JVal → Option (List String)
  | [] => some []
  | JVal.s v :: rest =>
    if 1 ≤ v.length then (asNonEmptyStrings rest).map (fun xs => v :: xs)
    else none
  | JVal.other :: _ => none

/-- A `z.array(z.string().min(1)).min(lo).max(hi)` schema applied to a
parsed JSON value. -/
def zodStrArray (lo hi : Nat) : JParse → Option (List String)
  | .arr elems =>
    match asNonEmptyStrings elems with
    | some xs => if lo ≤ xs.length ∧ xs.length ≤ hi then some xs else none
    | none => none
  | .nonArr => none
  | .bad => none

/-- An uploaded `File` as `imageFileSchema` inspects it. -/
structure ImageFile where
  size : Nat
  mime : String
  deriving DecidableEq

/-- The `imageFileSchema` refinements: non-empty, at most 5MB, and one of
the accepted image MIME types. -/
def imageValid (img : ImageFile) : Bool :=
  0 < img.size && img.size ≤ 5 * 1024 * 1024 &&
  (img.mime = "image/jpeg" || img.mime = "image/jpg" ||
   img.mime = "image/png" || img.mime = "image/webp")

/-- The multipart form as `createEventDirect` reads it: `image` is `some`
exactly when the `image` entry is a `File`; each text entry is `some` when
it is a string; `agenda`/`tags` hold the outcome of `JSON.parse` on the
field, `none` standing for an absent or empty field, which the code
defaults to `"[]"` (the empty array). -/
structure RawForm where
  image : Option ImageFile
  title : Option String
  description : Option String
  overview : Option String
  venue : Option String
  location : Option String
  date : Option String
  time : Option String
  mode : Option String
  audience : Option String
  organizer : Option String
  agenda : Option JParse
  tags : Option JParse
  deriving DecidableEq

/-- Output of a successful `createEventSchema.parse`. -/
structure ValidatedEvent where
  title : String
  description : String
  overview : String
  venue : String
  location : String
  date : String
  time : String
  mode : String
  audience : String
  agenda : List String
  organizer : String
  tags : List String
  deriving DecidableEq

/-- Success behaviour of `createEventSchema.parse` on the raw form data
(with `agenda`/`tags` already run through `JSON.parse`). -/
def parseCreateEvent (f : RawForm) (today : Nat) (agendaJ tagsJ : JParse) :
    Option ValidatedEvent := do
  let title ← zodStr 3 200 f.title
  let description ← zodStr 10 1000 f.description
  let overview ← zodStr 10 5000 f.overview
  let venue ← zodStr 2 200 f.venue
  let location ← zodStr 2 200 f.location
  let date ← zodDate today f.date
  let time ← zodTime f.time
  let mode ← zodMode f.mode
  let audience ← zodStr 2 200 f.audience
  let agenda ← zodStrArray 1 20 agendaJ
  let organizer ← zodStr 2 200 f.organizer
  let tags ← zodStrArray 1 10 tagsJ
  pure ⟨title, description, overview, venue, location, date, time, mode,
    audience, agenda, organizer, tags⟩

/-! ## Server actions (`src/lib/actions/events.ts`)

Each action is wrapped in a `try/catch` returning a structured
`ActionResult`.  The outcome of awaiting `connectDB` (and of the queries)
is modelled by the `connectOk` flag; the Cloudinary upload outcome by an
`Except Unit String` carrying the secure URL.
-/

/-- Insert an event into a list sorted by `createdAt` descending. -/
def insertByCreatedAt (e : StoredEvent) : List StoredEvent → List StoredEvent
  | [] => [e]
  | x :: xs =>
    if x.createdAt ≤ e.createdAt then e :: x :: xs
    else x :: insertByCreatedAt e xs

/-- Sort events by `createdAt` descending
(`Event.find().sort(createdAt: -1)`). -/
def sortByCreatedAtDesc : List StoredEvent → List StoredEvent
  | [] => []
  | x :: xs => insertByCreatedAt x (sortByCreatedAtDesc xs)

/-- Action `getAllEvents`: all events newest first together with their
count, or an `UNKNOWN` failure when the connection or query throws. -/
def getAllEvents (db : List StoredEvent) (connectOk : Bool) :
    ActionResult (List StoredEvent × Nat) :=
  if connectOk then
    let sorted := sortByCreatedAtDesc db
    .ok (sorted, sorted.length)
  else .err .UNKNOWN "Failed to fetch events"

/-- Action `getEventBySlug`: normalise and validate the slug, then look it
up with `findOne`. -/
def getEventBySlug (slug : String) (db : List StoredEvent) (connectOk : Bool) :
    ActionResult StoredEvent :=
  let v := normalizeSlugInput slug
  if slugValid v = false then .err .VALIDATION_ERROR "Invalid slug format"
  else if connectOk = false then .err .UNKNOWN "Failed to fetch event"
  else
    match db.find? (fun e => e.slug == v) with
    | none => .err .NOT_FOUND "Event with slug not found"
    | some e => .ok e

/-- Action `getSimilarEventsBySlug`: normalise and validate the slug, look
the event up, then query events sharing a tag.  When no event matches the
slug, the similar-events query is built from `undefined` fields and the
thrown cast error lands in the generic catch, an `UNKNOWN` failure; there
is no `NOT_FOUND` branch in this action. -/
def getSimilarEventsBySlug (slug : String) (db : List StoredEvent)
    (connectOk : Bool) : ActionResult (List StoredEvent × Nat) :=
  let v := normalizeSlugInput slug
  if slugValid v = false then .err .VALIDATION_ERROR "Invalid slug format"
  else if connectOk = false then .err .UNKNOWN "Failed to fetch event"
  else
    match db.find? (fun e => e.slug == v) with
    | none => .err .UNKNOWN "Failed to fetch event"
    | some e =>
      let sims := db.filter
        (fun x => !(x.id == e.id) && x.tags.any (fun t => e.tags.contains t))
      .ok (sims, sims.length)

/-- Result of `createEventDirect` together with its effects: the resulting
event store and whether the Cloudinary upload was reached. -/
structure CreateOutcome where
  result : ActionResult StoredEvent
  db : List StoredEvent
  uploadAttempted : Bool
  deriving DecidableEq

/-- The document handed to `Event.create` by `createEventDirect`:
the validated fields plus the uploaded image URL. -/
def docOf (v : ValidatedEvent) (url : String) : EventDoc :=
  ⟨v.title, v.description, v.overview, url, v.venue, v.location, v.date,
    v.time, v.mode, v.audience, v.agenda, v.organizer, v.tags⟩

/-- Action `createEventDirect`, in source order: the image `File` check,
`imageFileSchema`, `JSON.parse` of `agenda`/`tags` (a `SyntaxError` falls
through to the generic catch), `createEventSchema.parse`, the Cloudinary
upload, `connectDB`, and `Event.create`.  A `ZodError` maps to
`VALIDATION_ERROR`, an `E11000` duplicate key error to `CONFLICT`, and any
other exception to `UNKNOWN`. -/
def createEventDirect (f : RawForm) (db : List StoredEvent) (today : Nat)
    (upload : Except Unit String) (connectOk : Bool) (freshId now : Nat) :
    CreateOutcome :=
  match f.image with
  | none => ⟨.err .VALIDATION_ERROR "Image file is required", db, false⟩
  | some img =>
    if imageValid img = false then
      ⟨.err .VALIDATION_ERROR "Image must satisfy the image file schema", db, false⟩
    else
      let agendaJ := f.agenda.getD (JParse.arr [])
      let tagsJ := f.tags.getD (JParse.arr [])
      if agendaJ = JParse.bad ∨ tagsJ = JParse.bad then
        ⟨.err .UNKNOWN "Failed to create event", db, false⟩
      else
        match parseCreateEvent f today agendaJ tagsJ with
        | none => ⟨.err .VALIDATION_ERROR "Validation failed", db, false⟩
        | some v =>
          match upload with
          | .error _ => ⟨.err .UNKNOWN "Failed to create event", db, true⟩
          | .ok url =>
            if connectOk = false then
              ⟨.err .UNKNOWN "Failed to create event", db, true⟩
            else
              match eventSave db (docOf v url) freshId now with
              | .error .duplicate =>
                ⟨.err .CONFLICT "An event with this title already exists", db, true⟩
              | .error _ => ⟨.err .UNKNOWN "Failed to create event", db, true⟩
              | .ok e => ⟨.ok e, db ++ [e], true⟩

/-- Action `createEvent`: the `useActionState` wrapper, which ignores its
previous-state argument and delegates to `createEventDirect`. -/
def createEvent (_prevState : Option (ActionResult StoredEvent)) (f : RawForm)
    (db : List StoredEvent) (today : Nat) (upload : Except Unit String)
    (connectOk : Bool) (freshId now : Nat) : CreateOutcome :=
  createEventDirect f db today upload connectOk freshId now

/-! ## Booking save pipeline (Booking model)

A `Booking.create` on a new document runs: the `email` setters
(`lowercase`, `trim`), schema validation (`required` on `eventId` and
`email` — `required` rejects the empty string — and the email regex
validator), then the user `pre('save')` hook, which on a new document (the
`eventId` path is modified) checks `Event.findById(eventId)` and errors
when no such event exists. -/

/-- A persisted Booking document. -/
structure StoredBooking where
  eventId : Nat
  email : String
  deriving DecidableEq

/-- Field values handed to `Booking.create`; a missing field is `none`. -/
structure BookingInput where
  eventId : Option Nat
  email : Option String
  deriving DecidableEq

/-- Failure modes of `Booking.create`. -/
inductive BookingSaveErr
  | missingEventId
  | missingEmail
  | invalidEmail
  | eventMissing
  deriving DecidableEq

/-- Outcome of `Booking.create`: the error, if any, and the booking store
afterwards (unchanged on error). -/
structure BookingSaveOutcome where
  error : Option BookingSaveErr
  bookings : List StoredBooking
  deriving DecidableEq

/-- Save a new Booking document against the given event and booking
stores. -/
def bookingSave (events : List StoredEvent) (bookings : List StoredBooking)
    (input : BookingInput) : BookingSaveOutcome :=
  match input.eventId with
  | none => ⟨some .missingEventId, bookings⟩
  | some eid =>
    match input.email with
    | none => ⟨some .missingEmail, bookings⟩
    | some raw =>
      let email := jsTrim (jsToLower raw)
      if email = "" then ⟨some .missingEmail, bookings⟩
      else if emailTest email = false then ⟨some .invalidEmail, bookings⟩
      else if events.any (fun e => e.id == eid) = false then
        ⟨some .eventMissing, bookings⟩
      else ⟨none, bookings ++ [⟨eid, email⟩]⟩

/-! ## The memoised database connection (`src/database/mongodb.ts`)

The module-level cache holds an optional established connection and an
optional in-flight promise.  `mongoose.connect` creates a fresh promise;
awaiting a promise is modelled by the environment `env`, mapping promise
identifiers to their settled outcome.  On rejection, both the `.catch`
handler and the `try/catch` around the `await` reset `cached.promise` to
`null` and rethrow. -/

/-- The `global.mongooseCache` object: connection ids and promise ids are
natural numbers. -/
structure MongooseCache where
  conn : Option Nat
  promise : Option Nat
  deriving DecidableEq

/-- Outcome of one `connectDB()` call: the value returned or error thrown,
the cache afterwards, how many `mongoose.connect` calls were made (`0` or
`1`), and which promise was awaited, if any. -/
structure ConnectOutcome where
  result : Except Unit Nat
  cache : MongooseCache
  connectCalls : Nat
  awaited : Option Nat
  deriving DecidableEq

/-- One call of `connectDB`: return the cached connection if present;
otherwise await the cached promise if present, else create one fresh
`mongoose.connect` promise (identifier `fresh`) and await it.  A resolved
await caches the connection; a rejected await resets the cached promise
and propagates the error. -/
def connectDB (cache : MongooseCache) (env : Nat → Except Unit Nat)
    (fresh : Nat) : ConnectOutcome :=
  match cache.conn with
  | some c => ⟨.ok c, cache, 0, none⟩
  | none =>
    match cache.promise with
    | some p =>
      match env p with
      | .ok c => ⟨.ok c, ⟨some c, some p⟩, 0, some p⟩
      | .error e => ⟨.error e, ⟨none, none⟩, 0, some p⟩
    | none =>
      match env fresh with
      | .ok c => ⟨.ok c, ⟨some c, some fresh⟩, 1, some fresh⟩
      | .error e => ⟨.error e, ⟨none, none⟩, 1, some fresh⟩

/-! ## Concrete data used by witnesses and counterexamples -/

/-- A well-formed create form (valid image, fields and arrays). -/
def sampleForm : RawForm :=
  ⟨some ⟨100, "image/png"⟩, some "React Summit", some "a community summit",
   some "an event for developers", some "hall", some "nairobi", some "2025-12-15",
   some "09:00", some "online", some "developers", some "org team",
   some (JParse.arr [JVal.s "intro"]), some (JParse.arr [JVal.s "dev"])⟩

/-- The event `createEventDirect sampleForm [] ...` persists. -/
def sampleCreated : StoredEvent :=
  ⟨2, "React Summit", "react-summit", "a community summit", "an event for developers",
   "http://img", "hall", "nairobi", "2025-12-15", "09:00", "online", "developers",
   ["intro"], "org team", ["dev"], 1⟩

/-- The validated fields of `sampleForm`. -/
def sampleValidated : ValidatedEvent :=
  ⟨"React Summit", "a community summit", "an event for developers", "hall",
   "nairobi", "2025-12-15", "09:00", "online", "developers", ["intro"],
   "org team", ["dev"]⟩

/-- A persisted event whose slug collides with `sampleForm`'s title. -/
def sampleStoredDup : StoredEvent :=
  ⟨1, "React Summit", "react-summit", "earlier event", "earlier overview",
   "http://old", "hall", "nairobi", "2025-12-15", "09:00", "online", "devs",
   ["x"], "og", ["dev"], 0⟩

/-- `sampleForm` with its `image` entry missing. -/
def noImageForm : RawForm :=
  { sampleForm with image := none }

/-- `sampleForm` with an empty `tags` array. -/
def emptyTagsForm : RawForm :=
  { sampleForm with tags := some (JParse.arr []) }

/-- A document whose title contains an underscore, accepted by every
validator; its generated slug `dev_summit-2025` fails `slugSchema`. -/
def underscoreDoc : EventDoc :=
  ⟨"dev_summit 2025", "a community summit", "an event for developers",
   "http://img", "hall", "nairobi", "2025-12-15", "09:00", "online",
   "developers", ["intro"], "org team", ["dev"]⟩

/-- The persisted form of `underscoreDoc`. -/
def underscoreStored : StoredEvent :=
  ⟨1, "dev_summit 2025", "dev_summit-2025", "a community summit",
   "an event for developers", "http://img", "hall", "nairobi", "2025-12-15",
   "09:00", "online", "developers", ["intro"], "org team", ["dev"], 0⟩

/-! ## Supporting lemmas -/

/-- Valid code points below the surrogate range round-trip through
`Char.ofNat`. -/
theorem toNat_ofNat_valid {n : Nat} (h : n < 55296) : (Char.ofNat n).toNat = n := by
  have hv : Nat.isValidChar n := Or.inl h
  rw [Char.ofNat, dif_pos hv]
  simp [Char.ofNatAux, Char.toNat, UInt32.ofNat', UInt32.toNat]

/-- Membership of a character in the whitespace class, numerically. -/
theorem isSpaceJS_iff {c : Char} :
    isSpaceJS c = true ↔ (c.toNat = 32 ∨ c.toNat = 9 ∨ c.toNat = 10 ∨
      c.toNat = 13 ∨ c.toNat = 11 ∨ c.toNat = 12) := by
  unfold isSpaceJS
  simp
  tauto

/-- Lowercasing is idempotent on characters. -/
theorem jsLowerChar_idem (c : Char) : jsLowerChar (jsLowerChar c) = jsLowerChar c := by
  unfold jsLowerChar
  by_cases h : 65 ≤ c.toNat ∧ c.toNat ≤ 90
  · have h32 : (Char.ofNat (c.toNat + 32)).toNat = c.toNat + 32 :=
      toNat_ofNat_valid (by omega)
    rw [if_pos h, if_neg (by rw [h32]; omega)]
  · rw [if_neg h, if_neg h]

/-- Lowercasing does not create or destroy whitespace. -/
theorem isSpaceJS_jsLowerChar (c : Char) : isSpaceJS (jsLowerChar c) = isSpaceJS c := by
  unfold jsLowerChar
  by_cases h : 65 ≤ c.toNat ∧ c.toNat ≤ 90
  · have h32 : (Char.ofNat (c.toNat + 32)).toNat = c.toNat + 32 :=
      toNat_ofNat_valid (by omega)
    rw [if_pos h, Bool.eq_iff_iff, isSpaceJS_iff, isSpaceJS_iff, h32]
    omega
  · rw [if_neg h]

/-- Mapping a function that fixes every element of a list is the
identity. -/
theorem map_eq_self_of_fixed {l : List Char} {f : Char → Char}
    (h : ∀ c ∈ l, f c = c) : l.map f = l := by
  induction l with
  | nil => rfl
  | cons x xs ih =>
    simp only [List.map_cons, List.cons.injEq]
    exact ⟨h x (List.mem_cons_self x xs), ih fun c hc => h c (List.mem_cons_of_mem x hc)⟩

/-- Dropping a prefix of elements satisfying `p` from a list with no such
element is the identity. -/
theorem dropWhile_eq_self_of_none {l : List Char} {p : Char → Bool}
    (h : ∀ c ∈ l, p c = false) : l.dropWhile p = l := by
  cases l with
  | nil => rfl
  | cons x xs =>
    rw [List.dropWhile_cons_of_neg]
    simp [h x (List.mem_cons_self x xs)]

/-- `map` commutes with `dropWhile` when the function preserves the
predicate. -/
theorem map_dropWhile_comm {l : List Char} {p : Char → Bool} {f : Char → Char}
    (h : ∀ c, p (f c) = p c) : (l.map f).dropWhile p = (l.dropWhile p).map f := by
  induction l with
  | nil => rfl
  | cons x xs ih =>
    by_cases hx : p x
    · rw [List.map_cons, List.dropWhile_cons_of_pos (by rw [h]; exact hx),
        List.dropWhile_cons_of_pos hx, ih]
    · rw [List.map_cons, List.dropWhile_cons_of_neg, List.dropWhile_cons_of_neg hx,
        List.map_cons]
      rw [h]
      exact hx

/-- Trimming commutes with lowercasing, at the character-list level. -/
theorem jsTrimList_map_lower (l : List Char) :
    jsTrimList (l.map jsLowerChar) = (jsTrimList l).map jsLowerChar := by
  unfold jsTrimList
  simp only [map_dropWhile_comm isSpaceJS_jsLowerChar, ← List.map_reverse]

/-- Lowercasing commutes with trimming. -/
theorem jsToLower_jsTrim (s : String) : jsToLower (jsTrim s) = jsTrim (jsToLower s) := by
  simp only [jsToLower, jsTrim]
  rw [jsTrimList_map_lower]

/-- Lowercasing a string is idempotent. -/
theorem jsToLower_idem (s : String) : jsToLower (jsToLower s) = jsToLower s := by
  unfold jsToLower
  simp only [List.map_map]
  congr 1
  apply List.map_congr_left
  intro c _
  exact jsLowerChar_idem c

/-- Every character of a string accepted by the slug automaton is a
lowercase letter, a digit, or a hyphen. -/
theorem slugDFA_chars {l : List Char} :
    ∀ {st : Bool}, slugDFA l st = true → ∀ c ∈ l, slugChar c = true ∨ c = '-' := by
  induction l with
  | nil => intro st _ c hc; cases hc
  | cons x xs ih =>
    intro st h c hc
    unfold slugDFA at h
    by_cases hx : slugChar x
    · rw [if_pos hx] at h
      rcases List.mem_cons.mp hc with rfl | hmem
      · exact Or.inl hx
      · exact ih h c hmem
    · rw [if_neg hx] at h
      by_cases hh : (st && decide (x = '-')) = true
      · rw [if_pos hh] at h
        rw [Bool.and_eq_true, decide_eq_true_eq] at hh
        rcases List.mem_cons.mp hc with rfl | hmem
        · exact Or.inr hh.2
        · exact ih h c hmem
      · rw [if_neg hh] at h
        cases h

/-- Slug characters are fixed by lowercasing. -/
theorem jsLowerChar_slug {c : Char} (h : slugChar c = true ∨ c = '-') :
    jsLowerChar c = c := by
  rcases h with h | rfl
  · unfold slugChar at h
    simp only [Bool.or_eq_true, Bool.and_eq_true, decide_eq_true_eq] at h
    unfold jsLowerChar
    rw [if_neg]
    omega
  · decide

/-- Slug characters are not whitespace. -/
theorem isSpaceJS_slug {c : Char} (h : slugChar c = true ∨ c = '-') :
    isSpaceJS c = false := by
  rcases h with h | rfl
  · unfold slugChar at h
    simp only [Bool.or_eq_true, Bool.and_eq_true, decide_eq_true_eq] at h
    unfold isSpaceJS
    simp only [Bool.or_eq_false_iff, decide_eq_false_iff_not]
    omega
  · decide

/-- A valid slug is unchanged by the `toLowerCase().trim()` normalisation
of the actions. -/
theorem normalizeSlugInput_eq_self {s : String} (h : slugValid s = true) :
    normalizeSlugInput s = s := by
  unfold slugValid at h
  simp only [Bool.and_eq_true] at h
  have hchars : ∀ c ∈ s.data, slugChar c = true ∨ c = '-' := slugDFA_chars h.2
  unfold normalizeSlugInput jsToLower jsTrim jsTrimList
  rw [map_eq_self_of_fixed (fun c hc => jsLowerChar_slug (hchars c hc))]
  rw [dropWhile_eq_self_of_none (fun c hc => isSpaceJS_slug (hchars c hc))]
  rw [dropWhile_eq_self_of_none
    (fun c hc => isSpaceJS_slug (hchars c (List.mem_reverse.mp hc)))]
  simp

/-- Splitting at the first occurrence recovers the original list. -/
theorem splitAtFirst_eq {c : Char} {l a b : List Char}
    (h : splitAtFirst c l = some (a, b)) : l = a ++ c :: b := by
  induction l generalizing a with
  | nil => cases h
  | cons x xs ih =>
    unfold splitAtFirst at h
    by_cases hx : x = c
    · rw [if_pos hx] at h
      cases h
      simpa using hx
    · rw [if_neg hx] at h
      cases hsplit : splitAtFirst c xs with
      | none => rw [hsplit] at h; cases h
      | some p =>
        obtain ⟨a0, b0⟩ := p
        rw [hsplit] at h
        cases h
        simp [ih hsplit]

/-- A string accepted by the email regex contains no whitespace. -/
theorem emailTest_no_ws {s : String} (h : emailTest s = true) :
    ∀ c ∈ s.data, isSpaceJS c = false := by
  unfold emailTest at h
  cases hsplit : splitAtFirst '@' s.data with
  | none => rw [hsplit] at h; cases h
  | some p =>
    obtain ⟨lpart, dpart⟩ := p
    rw [hsplit] at h
    simp only [Bool.and_eq_true, List.all_eq_true] at h
    obtain ⟨⟨⟨_, hl⟩, hd⟩, _⟩ := h
    intro c hc
    rw [splitAtFirst_eq hsplit] at hc
    rcases List.mem_append.mp hc with hcl | hcr
    · have := hl c hcl
      unfold emailChar at this
      simp only [Bool.and_eq_true, Bool.not_eq_true'] at this
      exact this.1
    · rcases List.mem_cons.mp hcr with rfl | hcd
      · decide
      · have := hd c hcd
        unfold emailChar at this
        simp only [Bool.and_eq_true, Bool.not_eq_true'] at this
        exact this.1

/-- Trimming a string with no whitespace is the identity. -/
theorem jsTrim_eq_self_of_no_ws {s : String}
    (h : ∀ c ∈ s.data, isSpaceJS c = false) : jsTrim s = s := by
  unfold jsTrim jsTrimList
  rw [dropWhile_eq_self_of_none h]
  rw [dropWhile_eq_self_of_none (fun c hc => h c (List.mem_reverse.mp hc))]
  simp

/-- `find?` on a list containing a unique witness of the predicate finds
that witness. -/
theorem find?_slug_unique {db : List StoredEvent} {s : String} {e : StoredEvent}
    (he : e ∈ db) (hs : e.slug = s)
    (uniq : ∀ e2 ∈ db, e2.slug = s → e2 = e) :
    db.find? (fun x => x.slug == s) = some e := by
  induction db with
  | nil => cases he
  | cons hd tl ih =>
    by_cases hhd : hd.slug = s
    · have : hd = e := uniq hd (List.mem_cons_self hd tl) hhd
      rw [List.find?_cons_of_pos _ (by simp [hhd])]
      rw [this]
    · rw [List.find?_cons_of_neg _ (by simp [hhd])]
      have he' : e ∈ tl := by
        rcases List.mem_cons.mp he with rfl | hmem
        · exact absurd hs hhd
        · exact hmem
      exact ih he' fun e2 h2 => uniq e2 (List.mem_cons_of_mem hd h2)

/-- Components of a successful `createEventSchema.parse`. -/
theorem parseCreateEvent_eq_some {f : RawForm} {today : Nat} {aj tj : JParse}
    {v : ValidatedEvent} (h : parseCreateEvent f today aj tj = some v) :
    zodStr 3 200 f.title = some v.title ∧
    zodStr 10 1000 f.description = some v.description ∧
    zodStr 10 5000 f.overview = some v.overview ∧
    zodStr 2 200 f.venue = some v.venue ∧
    zodStr 2 200 f.location = some v.location ∧
    zodDate today f.date = some v.date ∧
    zodTime f.time = some v.time ∧
    zodMode f.mode = some v.mode ∧
    zodStr 2 200 f.audience = some v.audience ∧
    zodStrArray 1 20 aj = some v.agenda ∧
    zodStr 2 200 f.organizer = some v.organizer ∧
    zodStrArray 1 10 tj = some v.tags := by
  simp only [parseCreateEvent, Option.bind_eq_bind, Option.bind_eq_some,
    Option.pure_def, Option.some.injEq] at h
  obtain ⟨t, ht, d, hd, o, ho, ve, hve, lo, hlo, da, hda, ti, hti, mo, hmo,
    au, hau, ag, hag, og, hog, tg, htg, hv⟩ := h
  subst hv
  exact ⟨ht, hd, ho, hve, hlo, hda, hti, hmo, hau, hag, hog, htg⟩

/-- A successful `dateSchema` check yields a date the save hook
normalises successfully. -/
theorem zodDate_norm {today : Nat} {x : Option String} {s : String}
    (h : zodDate today x = some s) : jsDateNorm s = some s := by
  cases x with
  | none => cases h
  | some s0 =>
    simp only [zodDate] at h
    cases hk : jsDateKey s0 with
    | none => rw [hk] at h; cases h
    | some k =>
      rw [hk] at h
      simp only [] at h
      by_cases hc : (parseIsoDate s0).isSome = true ∧ today ≤ k
      · rw [if_pos hc] at h
        cases h
        unfold jsDateNorm
        rw [hk]
      · rw [if_neg hc] at h
        cases h

/-- A successful `timeSchema` check yields a time accepted by the save
hook's regex. -/
theorem zodTime_regex {x : Option String} {s : String}
    (h : zodTime x = some s) : timeRegexTest s = true := by
  cases x with
  | none => cases h
  | some s0 =>
    simp only [zodTime] at h
    by_cases hc : timeRegexTest s0 = true
    · rw [if_pos hc] at h
      cases h
      exact hc
    · rw [if_neg hc] at h
      cases h

/-- Every string accepted by the element schema `z.string().min(1)` is
non-empty. -/
theorem asNonEmptyStrings_mem {elems : List JVal} {xs : List String}
    (h : asNonEmptyStrings elems = some xs) : ∀ x ∈ xs, x ≠ "" := by
  induction elems generalizing xs with
  | nil =>
    simp only [asNonEmptyStrings, Option.some.injEq] at h
    subst h
    intro x hx
    cases hx
  | cons e es ih =>
    cases e with
    | other => cases h
    | s v =>
      simp only [asNonEmptyStrings] at h
      by_cases hv : 1 ≤ v.length
      · rw [if_pos hv] at h
        cases hrest : asNonEmptyStrings es with
        | none => rw [hrest] at h; cases h
        | some zs =>
          rw [hrest] at h
          simp only [Option.map_some', Option.some.injEq] at h
          subst h
          intro x hx
          rcases List.mem_cons.mp hx with rfl | hmem
          · intro hempty
            rw [hempty] at hv
            simp [String.length] at hv
          · exact ih hrest x hmem
      · rw [if_neg hv] at h
        cases h

/-- Bounds and non-emptiness of the elements produced by the string-array
schema. -/
theorem zodStrArray_bounds {lo hi : Nat} {j : JParse} {xs : List String}
    (h : zodStrArray lo hi j = some xs) :
    lo ≤ xs.length ∧ xs.length ≤ hi ∧ ∀ x ∈ xs, x ≠ "" := by
  cases j with
  | nonArr => cases h
  | bad => cases h
  | arr elems =>
    simp only [zodStrArray] at h
    cases hstr : asNonEmptyStrings elems with
    | none => rw [hstr] at h; cases h
    | some ys =>
      rw [hstr] at h
      simp only [] at h
      by_cases hc : lo ≤ ys.length ∧ ys.length ≤ hi
      · rw [if_pos hc] at h
        cases h
        exact ⟨hc.1, hc.2, asNonEmptyStrings_mem hstr⟩
      · rw [if_neg hc] at h
        cases h

/-- Date normalisation returns the date it was given. -/
theorem jsDateNorm_eq {s t : String} (h : jsDateNorm s = some t) : t = s := by
  unfold jsDateNorm at h
  cases hk : jsDateKey s with
  | none => rw [hk] at h; cases h
  | some k =>
    rw [hk] at h
    simp only [Option.some.injEq] at h
    exact h.symm

/-- Fields of the event constructed by a successful save: the arrays are
stored as given, the slug is generated from the trimmed title, and no
stored event already carried that slug. -/
theorem eventSave_ok_shape {db : List StoredEvent} {doc : EventDoc}
    {freshId now : Nat} {e : StoredEvent}
    (h : eventSave db doc freshId now = Except.ok e) :
    e.agenda = doc.agenda ∧ e.tags = doc.tags ∧
    e.slug = slugify (jsTrim doc.title) ∧
    db.any (fun x => x.slug == slugify (jsTrim doc.title)) = false := by
  unfold eventSave at h
  by_cases hval : mongooseEventValid (applySetters doc) = false
  · rw [if_pos hval] at h
    cases h
  · rw [if_neg hval] at h
    simp only [] at h
    cases hdn : jsDateNorm (applySetters doc).date with
    | none => rw [hdn] at h; cases h
    | some nd =>
      rw [hdn] at h
      simp only [] at h
      by_cases htime : timeRegexTest (applySetters doc).time = false
      · rw [if_pos htime] at h
        cases h
      · rw [if_neg htime] at h
        by_cases hdup : db.any
            (fun x => x.slug == slugify (applySetters doc).title) = true
        · rw [if_pos hdup] at h
          cases h
        · rw [if_neg hdup] at h
          cases h
          exact ⟨rfl, rfl, rfl, by simpa using hdup⟩

/-- A save whose document passes validation, date normalisation and the
time check, but whose generated slug is already stored, fails with the
`E11000` duplicate key error. -/
theorem eventSave_duplicate {db : List StoredEvent} {doc : EventDoc}
    {freshId now : Nat}
    (hval : mongooseEventValid (applySetters doc) = true)
    (hdn : (jsDateNorm (applySetters doc).date).isSome = true)
    (ht : timeRegexTest (applySetters doc).time = true)
    (hdup : db.any (fun x => x.slug == slugify (applySetters doc).title) = true) :
    eventSave db doc freshId now = Except.error EventSaveErr.duplicate := by
  unfold eventSave
  rw [if_neg (by simp [hval])]
  simp only []
  cases hk : jsDateNorm (applySetters doc).date with
  | none => rw [hk] at hdn; cases hdn
  | some nd =>
    simp only []
    rw [if_neg (by simp [ht]), if_pos hdup]

/-! ## Claim theorems -/

/-- C1: `connectDB` maintains a single cached connection handle: once a
connection attempt is in flight (a cached promise exists and no connection
is established), every caller awaits that same cached promise and makes no
`mongoose.connect` call; once a connection has resolved (a cached
connection exists), every subsequent call returns the same cached
connection, unchanged cache, without opening a new one. -/
theorem connectDB_single_cached_connection :
    ∀ (cache : MongooseCache) (env : Nat → Except Unit Nat) (fresh : Nat),
      (∀ c, cache.conn = some c →
        (connectDB cache env fresh).result = Except.ok c ∧
        (connectDB cache env fresh).connectCalls = 0 ∧
        (connectDB cache env fresh).cache = cache) ∧
      (∀ p, cache.conn = none → cache.promise = some p →
        (connectDB cache env fresh).connectCalls = 0 ∧
        (connectDB cache env fresh).awaited = some p) := by
  intro cache env fresh
  constructor
  · intro c hc
    simp [connectDB, hc]
  · intro p hc hp
    cases henv : env p with
    | ok c => simp [connectDB, hc, hp, henv]
    | error e => simp [connectDB, hc, hp, henv]

/-- Witness for C1 at concrete caches. -/
theorem connectDB_single_cached_connection_witness :
    (connectDB ⟨some 7, some 3⟩ (fun _ => Except.ok 9) 0).result = Except.ok 7 ∧
    (connectDB ⟨none, some 3⟩ (fun _ => Except.ok 9) 0).connectCalls = 0 := by
  exact ⟨((connectDB_single_cached_connection ⟨some 7, some 3⟩
      (fun _ => Except.ok 9) 0).1 7 rfl).1,
    ((connectDB_single_cached_connection ⟨none, some 3⟩
      (fun _ => Except.ok 9) 0).2 3 rfl rfl).1⟩

/-- C9: when the connection attempt awaited inside `connectDB` fails, the
error is propagated, the cached promise is reset to `null`, and a
subsequent call starts a fresh connection attempt (it makes exactly one
new `mongoose.connect` call) instead of re-awaiting the failed promise. -/
theorem connectDB_failure_resets_promise :
    ∀ (cache : MongooseCache) (env : Nat → Except Unit Nat) (fresh p : Nat),
      cache.conn = none →
      (cache.promise = some p ∨ (cache.promise = none ∧ p = fresh)) →
      env p = Except.error () →
      (connectDB cache env fresh).result = Except.error () ∧
      (connectDB cache env fresh).cache.promise = none ∧
      (∀ (env2 : Nat → Except Unit Nat) (fresh2 : Nat),
        (connectDB (connectDB cache env fresh).cache env2 fresh2).connectCalls = 1 ∧
        (connectDB (connectDB cache env fresh).cache env2 fresh2).awaited = some fresh2) := by
  intro cache env fresh p hconn hp henv
  have hres : (connectDB cache env fresh).cache = ⟨none, none⟩ := by
    rcases hp with hprom | ⟨hprom, rfl⟩
    · simp [connectDB, hconn, hprom, henv]
    · simp [connectDB, hconn, hprom, henv]
  refine ⟨?_, ?_, ?_⟩
  · rcases hp with hprom | ⟨hprom, rfl⟩
    · simp [connectDB, hconn, hprom, henv]
    · simp [connectDB, hconn, hprom, henv]
  · rw [hres]
  · intro env2 fresh2
    rw [hres]
    cases henv2 : env2 fresh2 with
    | ok c => simp [connectDB, henv2]
    | error e => simp [connectDB, henv2]

/-- Witness for C9 at a concrete cache with a failing in-flight promise. -/
theorem connectDB_failure_resets_promise_witness :
    (connectDB ⟨none, some 3⟩ (fun _ => Except.error ()) 0).result = Except.error () ∧
    (connectDB ⟨none, some 3⟩ (fun _ => Except.error ()) 0).cache.promise = none := by
  have h := connectDB_failure_resets_promise ⟨none, some 3⟩
    (fun _ => Except.error ()) 0 3 rfl (Or.inl rfl) rfl
  exact ⟨h.1, h.2.1⟩

/-- Case analysis on the outcome of `createEventDirect`: a validation
failure with untouched state, an `UNKNOWN` failure before or after the
upload with untouched store, a `CONFLICT` failure, or a successful save
appended to the store. -/
theorem createEventDirect_cases (f : RawForm) (db : List StoredEvent)
    (today : Nat) (upload : Except Unit String) (connectOk : Bool)
    (freshId now : Nat) :
    (∃ msg, createEventDirect f db today upload connectOk freshId now =
      ⟨ActionResult.err ErrCode.VALIDATION_ERROR msg, db, false⟩) ∨
    ((f.agenda.getD (JParse.arr []) = JParse.bad ∨
      f.tags.getD (JParse.arr []) = JParse.bad) ∧
     createEventDirect f db today upload connectOk freshId now =
      ⟨ActionResult.err ErrCode.UNKNOWN "Failed to create event", db, false⟩) ∨
    ((∃ v, parseCreateEvent f today (f.agenda.getD (JParse.arr []))
        (f.tags.getD (JParse.arr [])) = some v) ∧
     createEventDirect f db today upload connectOk freshId now =
      ⟨ActionResult.err ErrCode.UNKNOWN "Failed to create event", db, true⟩) ∨
    ((∃ v, parseCreateEvent f today (f.agenda.getD (JParse.arr []))
        (f.tags.getD (JParse.arr [])) = some v) ∧
     createEventDirect f db today upload connectOk freshId now =
      ⟨ActionResult.err ErrCode.CONFLICT "An event with this title already exists",
        db, true⟩) ∨
    (∃ v url e,
      parseCreateEvent f today (f.agenda.getD (JParse.arr []))
        (f.tags.getD (JParse.arr [])) = some v ∧
      upload = Except.ok url ∧ connectOk = true ∧
      eventSave db (docOf v url) freshId now = Except.ok e ∧
      createEventDirect f db today upload connectOk freshId now =
        ⟨ActionResult.ok e, db ++ [e], true⟩) := by
  unfold createEventDirect
  cases himg : f.image with
  | none => exact Or.inl ⟨_, rfl⟩
  | some img =>
    simp only []
    by_cases hiv : imageValid img = false
    · rw [if_pos hiv]
      exact Or.inl ⟨_, rfl⟩
    · rw [if_neg hiv]
      by_cases hbad : f.agenda.getD (JParse.arr []) = JParse.bad ∨
          f.tags.getD (JParse.arr []) = JParse.bad
      · rw [if_pos hbad]
        exact Or.inr (Or.inl ⟨hbad, rfl⟩)
      · rw [if_neg hbad]
        cases hv : parseCreateEvent f today (f.agenda.getD (JParse.arr []))
            (f.tags.getD (JParse.arr [])) with
        | none => exact Or.inl ⟨_, rfl⟩
        | some v =>
          simp only []
          cases hup : upload with
          | error u => exact Or.inr (Or.inr (Or.inl ⟨⟨v, rfl⟩, rfl⟩))
          | ok url =>
            simp only []
            by_cases hconn : connectOk = false
            · rw [if_pos hconn]
              exact Or.inr (Or.inr (Or.inl ⟨⟨v, rfl⟩, rfl⟩))
            · rw [if_neg hconn]
              have hconn' : connectOk = true := by
                revert hconn
                cases connectOk <;> simp
              cases hsave : eventSave db (docOf v url) freshId now with
              | error err =>
                cases err with
                | duplicate => exact Or.inr (Or.inr (Or.inr (Or.inl ⟨⟨v, rfl⟩, rfl⟩)))
                | validation => exact Or.inr (Or.inr (Or.inl ⟨⟨v, rfl⟩, rfl⟩))
                | badDate => exact Or.inr (Or.inr (Or.inl ⟨⟨v, rfl⟩, rfl⟩))
                | badTime => exact Or.inr (Or.inr (Or.inl ⟨⟨v, rfl⟩, rfl⟩))
              | ok e =>
                exact Or.inr (Or.inr (Or.inr (Or.inr
                  ⟨v, url, e, rfl, rfl, hconn', hsave, rfl⟩)))

/-- C4: every failure result of the five actions is structured — `ok`
false with a message string by construction of `ActionResult.err`, and a
code drawn from `VALIDATION_ERROR`, `NOT_FOUND`, `CONFLICT`, `UNKNOWN`
(never `UNAUTHORIZED`); each action is a total function into
`ActionResult`, mirroring the catch-all `try/catch` that prevents
exceptions from escaping to the caller. -/
theorem actions_error_codes_closed :
    ∀ (db : List StoredEvent) (connectOk : Bool) (slug : String) (f : RawForm)
      (today : Nat) (upload : Except Unit String) (freshId now : Nat)
      (prev : Option (ActionResult StoredEvent)),
      resCodeOk (getAllEvents db connectOk) ∧
      resCodeOk (getEventBySlug slug db connectOk) ∧
      resCodeOk (getSimilarEventsBySlug slug db connectOk) ∧
      resCodeOk ((createEventDirect f db today upload connectOk freshId now).result) ∧
      resCodeOk ((createEvent prev f db today upload connectOk freshId now).result) := by
  intro db connectOk slug f today upload freshId now prev
  have hcreate : resCodeOk ((createEventDirect f db today upload connectOk
      freshId now).result) := by
    rcases createEventDirect_cases f db today upload connectOk freshId now with
      ⟨msg, heq⟩ | ⟨_, heq⟩ | ⟨_, heq⟩ | ⟨_, heq⟩ | ⟨v, url, e, _, _, _, _, heq⟩ <;>
      rw [heq] <;> simp [resCodeOk, allowedCode]
  refine ⟨?_, ?_, ?_, hcreate, hcreate⟩
  · unfold getAllEvents
    by_cases h : connectOk = true
    · rw [if_pos h]
      simp [resCodeOk]
    · rw [if_neg h]
      simp [resCodeOk, allowedCode]
  · unfold getEventBySlug
    by_cases h1 : slugValid (normalizeSlugInput slug) = false
    · rw [if_pos h1]
      simp [resCodeOk, allowedCode]
    · rw [if_neg h1]
      by_cases h2 : connectOk = false
      · rw [if_pos h2]
        simp [resCodeOk, allowedCode]
      · rw [if_neg h2]
        cases hf : db.find? (fun e => e.slug == normalizeSlugInput slug) with
        | none => simp [resCodeOk, allowedCode]
        | some e => simp [resCodeOk]
  · unfold getSimilarEventsBySlug
    by_cases h1 : slugValid (normalizeSlugInput slug) = false
    · rw [if_pos h1]
      simp [resCodeOk, allowedCode]
    · rw [if_neg h1]
      by_cases h2 : connectOk = false
      · rw [if_pos h2]
        simp [resCodeOk, allowedCode]
      · rw [if_neg h2]
        cases hf : db.find? (fun e => e.slug == normalizeSlugInput slug) with
        | none => simp [resCodeOk, allowedCode]
        | some e => simp [resCodeOk]

/-- C8: `getSimilarEventsBySlug` never returns a `NOT_FOUND` failure; in
particular, for a well-formed slug matching no stored event (with the
connection up) it returns the `UNKNOWN` failure produced by the similar
events query built from the missing event, not `NOT_FOUND`. -/
theorem getSimilarEventsBySlug_never_not_found :
    ∀ (slug : String) (db : List StoredEvent) (connectOk : Bool),
      codeOf (getSimilarEventsBySlug slug db connectOk) ≠ some ErrCode.NOT_FOUND ∧
      (slugValid (normalizeSlugInput slug) = true → connectOk = true →
        (∀ e ∈ db, e.slug ≠ normalizeSlugInput slug) →
        getSimilarEventsBySlug slug db connectOk =
          ActionResult.err ErrCode.UNKNOWN "Failed to fetch event") := by
  intro slug db connectOk
  constructor
  · unfold getSimilarEventsBySlug
    by_cases h1 : slugValid (normalizeSlugInput slug) = false
    · rw [if_pos h1]
      simp [codeOf]
    · rw [if_neg h1]
      by_cases h2 : connectOk = false
      · rw [if_pos h2]
        simp [codeOf]
      · rw [if_neg h2]
        cases hf : db.find? (fun e => e.slug == normalizeSlugInput slug) with
        | none => simp [codeOf]
        | some e => simp [codeOf]
  · intro hvalid hconn hnone
    unfold getSimilarEventsBySlug
    simp only []
    rw [if_neg (by simp [hvalid]), if_neg (by simp [hconn])]
    have hfind : db.find? (fun e => e.slug == normalizeSlugInput slug) = none := by
      rw [List.find?_eq_none]
      intro e he
      simp [hnone e he]
    rw [hfind]

/-- Witness for C8 on a concrete well-formed unknown slug. -/
theorem getSimilarEventsBySlug_never_not_found_witness :
    getSimilarEventsBySlug "no-such-event" [] true =
      ActionResult.err ErrCode.UNKNOWN "Failed to fetch event" := by
  exact (getSimilarEventsBySlug_never_not_found "no-such-event" [] true).2
    (by decide) rfl (by intro e he; cases he)

/-- C10: in `createEventDirect` the image and field validation precede the
upload and the database write: whenever the result is a
`VALIDATION_ERROR` failure, the Cloudinary upload was never attempted and
the event store is unchanged. -/
theorem createEventDirect_validation_failure_no_effects :
    ∀ (f : RawForm) (db : List StoredEvent) (today : Nat)
      (upload : Except Unit String) (connectOk : Bool) (freshId now : Nat)
      (msg : String),
      (createEventDirect f db today upload connectOk freshId now).result =
        ActionResult.err ErrCode.VALIDATION_ERROR msg →
      (createEventDirect f db today upload connectOk freshId now).uploadAttempted = false ∧
      (createEventDirect f db today upload connectOk freshId now).db = db := by
  intro f db today upload connectOk freshId now msg h
  rcases createEventDirect_cases f db today upload connectOk freshId now with
    ⟨m, heq⟩ | ⟨_, heq⟩ | ⟨_, heq⟩ | ⟨_, heq⟩ | ⟨v, url, e, _, _, _, _, heq⟩ <;>
    rw [heq] at h ⊢ <;> simp_all

/-- Witness for C10 on a form without an image file. -/
theorem createEventDirect_validation_failure_no_effects_witness :
    (createEventDirect ⟨none, none, none, none, none, none, none, none, none,
        none, none, none, none⟩ [] 0 (Except.ok "u") true 1 1).uploadAttempted = false ∧
    (createEventDirect ⟨none, none, none, none, none, none, none, none, none,
        none, none, none, none⟩ [] 0 (Except.ok "u") true 1 1).db = [] := by
  exact createEventDirect_validation_failure_no_effects
    ⟨none, none, none, none, none, none, none, none, none, none, none, none, none⟩
    [] 0 (Except.ok "u") true 1 1 "Image file is required" (by decide)

/-- C5: every event accepted by `createEventDirect` has a non-empty tags
array and a non-empty agenda array with every element a non-empty string,
at most 10 tags and at most 20 agenda items; and every input whose parsed
tags or agenda arrays violate these constraints (with the arrays
themselves parseable) is rejected with `VALIDATION_ERROR`. -/
theorem createEventDirect_tags_agenda_invariant :
    ∀ (f : RawForm) (db : List StoredEvent) (today : Nat)
      (upload : Except Unit String) (connectOk : Bool) (freshId now : Nat),
      (∀ e : StoredEvent,
        (createEventDirect f db today upload connectOk freshId now).result =
          ActionResult.ok e →
        e.tags ≠ [] ∧ e.agenda ≠ [] ∧ e.tags.length ≤ 10 ∧
        e.agenda.length ≤ 20 ∧ (∀ t ∈ e.tags, t ≠ "") ∧ (∀ a ∈ e.agenda, a ≠ "")) ∧
      (f.agenda.getD (JParse.arr []) ≠ JParse.bad →
       f.tags.getD (JParse.arr []) ≠ JParse.bad →
       (zodStrArray 1 20 (f.agenda.getD (JParse.arr [])) = none ∨
        zodStrArray 1 10 (f.tags.getD (JParse.arr [])) = none) →
       codeOf (createEventDirect f db today upload connectOk freshId now).result =
         some ErrCode.VALIDATION_ERROR) := by
  intro f db today upload connectOk freshId now
  constructor
  · intro e hok
    rcases createEventDirect_cases f db today upload connectOk freshId now with
      ⟨m, heq⟩ | ⟨_, heq⟩ | ⟨_, heq⟩ | ⟨_, heq⟩ |
      ⟨v, url, e0, hv, hup, hcn, hsave, heq⟩
    · rw [heq] at hok; cases hok
    · rw [heq] at hok; cases hok
    · rw [heq] at hok; cases hok
    · rw [heq] at hok; cases hok
    · rw [heq] at hok
      cases hok
      obtain ⟨hagenda, htags, -, -⟩ := eventSave_ok_shape hsave
      obtain ⟨-, -, -, -, -, -, -, -, -, hag, -, htg⟩ := parseCreateEvent_eq_some hv
      obtain ⟨ha1, ha2, ha3⟩ := zodStrArray_bounds hag
      obtain ⟨ht1, ht2, ht3⟩ := zodStrArray_bounds htg
      refine ⟨?_, ?_, ?_, ?_, ?_, ?_⟩
      · rw [htags]
        show v.tags ≠ []
        exact List.ne_nil_of_length_pos (by omega)
      · rw [hagenda]
        show v.agenda ≠ []
        exact List.ne_nil_of_length_pos (by omega)
      · rw [htags]
        exact ht2
      · rw [hagenda]
        exact ha2
      · rw [htags]
        exact ht3
      · rw [hagenda]
        exact ha3
  · intro hnbA hnbB hviol
    rcases createEventDirect_cases f db today upload connectOk freshId now with
      ⟨m, heq⟩ | ⟨hbad, heq⟩ | ⟨⟨v, hv⟩, heq⟩ | ⟨⟨v, hv⟩, heq⟩ |
      ⟨v, url, e0, hv, hup, hcn, hsave, heq⟩
    · rw [heq]
      rfl
    · rcases hbad with hb | hb
      · exact absurd hb hnbA
      · exact absurd hb hnbB
    · obtain ⟨-, -, -, -, -, -, -, -, -, hag, -, htg⟩ := parseCreateEvent_eq_some hv
      rcases hviol with hvv | hvv
      · rw [hag] at hvv; cases hvv
      · rw [htg] at hvv; cases hvv
    · obtain ⟨-, -, -, -, -, -, -, -, -, hag, -, htg⟩ := parseCreateEvent_eq_some hv
      rcases hviol with hvv | hvv
      · rw [hag] at hvv; cases hvv
      · rw [htg] at hvv; cases hvv
    · obtain ⟨-, -, -, -, -, -, -, -, -, hag, -, htg⟩ := parseCreateEvent_eq_some hv
      rcases hviol with hvv | hvv
      · rw [hag] at hvv; cases hvv
      · rw [htg] at hvv; cases hvv

/-- Witness for C5: the sample form is accepted with non-empty arrays, and
the same form with an empty tags array is rejected with
`VALIDATION_ERROR`. -/
theorem createEventDirect_tags_agenda_invariant_witness :
    sampleCreated.tags ≠ [] ∧
    codeOf (createEventDirect emptyTagsForm [] 20251215 (Except.ok "http://img")
      true 2 1).result = some ErrCode.VALIDATION_ERROR := by
  constructor
  · exact ((createEventDirect_tags_agenda_invariant sampleForm [] 20251215
      (Except.ok "http://img") true 2 1).1 sampleCreated (by decide)).1
  · exact (createEventDirect_tags_agenda_invariant emptyTagsForm [] 20251215
      (Except.ok "http://img") true 2 1).2 (by decide) (by decide)
      (Or.inr (by decide))

/-- C2 as stated fails: this form input's title generates the same slug as
the persisted event `sampleStoredDup`, yet `createEventDirect` returns
`VALIDATION_ERROR` (the image entry is missing), not `CONFLICT`. -/
theorem createEventDirect_dup_title_without_conflict :
    slugify (jsTrim "React Summit") = "react-summit" ∧
    sampleStoredDup.slug = "react-summit" ∧
    noImageForm.title = some "React Summit" ∧
    (createEventDirect noImageForm [sampleStoredDup] 20251215
        (Except.ok "http://img") true 2 1).result =
      ActionResult.err ErrCode.VALIDATION_ERROR "Image file is required" := by
  refine ⟨by decide, by decide, by decide, by decide⟩

/-- C2 amended: for every form input that passes image validation and
field validation, whose saved document passes the Event schema validation,
and whose image upload and database connection succeed, if the slug
generated from the (trimmed) title equals the slug of an already-persisted
event then `createEventDirect` returns a `CONFLICT` failure, because the
slug is derived deterministically from the title by the save hook and
slugs are unique per Event. -/
theorem createEventDirect_duplicate_slug_conflict :
    ∀ (f : RawForm) (db : List StoredEvent) (today : Nat) (url : String)
      (freshId now : Nat) (v : ValidatedEvent),
      parseCreateEvent f today (f.agenda.getD (JParse.arr []))
        (f.tags.getD (JParse.arr [])) = some v →
      (∃ img, f.image = some img ∧ imageValid img = true) →
      mongooseEventValid (applySetters (docOf v url)) = true →
      db.any (fun x => x.slug == slugify (jsTrim v.title)) = true →
      (createEventDirect f db today (Except.ok url) true freshId now).result =
        ActionResult.err ErrCode.CONFLICT "An event with this title already exists" := by
  intro f db today url freshId now v hv himg hval hdup
  obtain ⟨img, hfi, hiv⟩ := himg
  obtain ⟨-, -, -, -, -, hdate, htime, -, -, hag, -, htg⟩ :=
    parseCreateEvent_eq_some hv
  have hnbA : f.agenda.getD (JParse.arr []) ≠ JParse.bad := by
    intro hb
    rw [hb] at hag
    cases hag
  have hnbB : f.tags.getD (JParse.arr []) ≠ JParse.bad := by
    intro hb
    rw [hb] at htg
    cases htg
  have hsave : eventSave db (docOf v url) freshId now =
      Except.error EventSaveErr.duplicate := by
    apply eventSave_duplicate hval
    · show (jsDateNorm v.date).isSome = true
      rw [zodDate_norm hdate]
      rfl
    · show timeRegexTest v.time = true
      exact zodTime_regex htime
    · show db.any (fun x => x.slug == slugify (jsTrim v.title)) = true
      exact hdup
  unfold createEventDirect
  rw [hfi]
  simp only []
  rw [if_neg (by simp [hiv])]
  rw [if_neg (by
    intro hb
    rcases hb with hb | hb
    · exact hnbA hb
    · exact hnbB hb)]
  rw [hv]
  simp only []
  rw [if_neg (by simp)]
  rw [hsave]

/-- Witness for the amended C2 on the sample form against a store holding
an event with the colliding slug. -/
theorem createEventDirect_duplicate_slug_conflict_witness :
    (createEventDirect sampleForm [sampleStoredDup] 20251215
        (Except.ok "http://img") true 2 1).result =
      ActionResult.err ErrCode.CONFLICT "An event with this title already exists" := by
  exact createEventDirect_duplicate_slug_conflict sampleForm [sampleStoredDup]
    20251215 "http://img" 2 1 sampleValidated (by decide)
    ⟨⟨100, "image/png"⟩, by decide, by decide⟩ (by decide) (by decide)

/-- C3 as stated fails: `underscoreDoc` saves successfully (its title is
accepted by every validator), but `getEventBySlug` on the stored event's
own slug returns `VALIDATION_ERROR`, not `ok`, because the generated slug
`dev_summit-2025` contains an underscore, which `slugSchema` rejects. -/
theorem getEventBySlug_stored_underscore_slug :
    eventSave [] underscoreDoc 1 0 = Except.ok underscoreStored ∧
    getEventBySlug underscoreStored.slug [underscoreStored] true =
      ActionResult.err ErrCode.VALIDATION_ERROR "Invalid slug format" := by
  exact ⟨by decide, by decide⟩

/-- C3 amended: with the connection up, for every slug valid after
lowercasing and trimming that matches no stored event, `getEventBySlug`
returns a `NOT_FOUND` failure; and for every stored event whose slug
itself satisfies the slug format (slugs being unique in the store, as the
unique index guarantees), it returns `ok` with that event's data. -/
theorem getEventBySlug_spec :
    ∀ (slug : String) (db : List StoredEvent),
      (slugValid (normalizeSlugInput slug) = true →
        (∀ e ∈ db, e.slug ≠ normalizeSlugInput slug) →
        getEventBySlug slug db true =
          ActionResult.err ErrCode.NOT_FOUND "Event with slug not found") ∧
      (∀ e ∈ db, slugValid e.slug = true →
        (∀ e2 ∈ db, e2.slug = e.slug → e2 = e) →
        getEventBySlug e.slug db true = ActionResult.ok e) := by
  intro slug db
  constructor
  · intro hvalid hnone
    unfold getEventBySlug
    simp only []
    rw [if_neg (by simp [hvalid]), if_neg (by simp)]
    have hfind : db.find? (fun e => e.slug == normalizeSlugInput slug) = none := by
      rw [List.find?_eq_none]
      intro e he
      simp [hnone e he]
    rw [hfind]
  · intro e he hesv huniq
    unfold getEventBySlug
    simp only []
    rw [normalizeSlugInput_eq_self hesv]
    rw [if_neg (by simp [hesv]), if_neg (by simp)]
    rw [find?_slug_unique he rfl huniq]

/-- Witness for the amended C3: an unknown well-formed slug yields
`NOT_FOUND`, and a stored event with a schema-valid slug is returned. -/
theorem getEventBySlug_spec_witness :
    getEventBySlug "no-such-slug" [sampleStoredDup] true =
      ActionResult.err ErrCode.NOT_FOUND "Event with slug not found" ∧
    getEventBySlug sampleStoredDup.slug [sampleStoredDup] true =
      ActionResult.ok sampleStoredDup := by
  constructor
  · exact (getEventBySlug_spec "no-such-slug" [sampleStoredDup]).1
      (by decide) (by decide)
  · exact (getEventBySlug_spec sampleStoredDup.slug [sampleStoredDup]).2
      sampleStoredDup (by decide) (by decide) (by decide)

/-- C6: saving a Booking whose `eventId` matches no existing Event fails
with an error and leaves the booking store unchanged; consequently the
save operation preserves the invariant that every persisted Booking
references an existing Event. -/
theorem bookingSave_referential_integrity :
    ∀ (events : List StoredEvent) (bookings : List StoredBooking)
      (input : BookingInput),
      ((∀ eid, input.eventId = some eid → ∀ e ∈ events, e.id ≠ eid) →
        (bookingSave events bookings input).error.isSome = true ∧
        (bookingSave events bookings input).bookings = bookings) ∧
      ((∀ b ∈ bookings, ∃ e ∈ events, e.id = b.eventId) →
        ∀ b ∈ (bookingSave events bookings input).bookings,
          ∃ e ∈ events, e.id = b.eventId) := by
  intro events bookings input
  unfold bookingSave
  cases hid : input.eventId with
  | none => exact ⟨fun _ => ⟨rfl, rfl⟩, fun hinv b hb => hinv b hb⟩
  | some eid =>
    simp only []
    cases hem : input.email with
    | none => exact ⟨fun _ => ⟨rfl, rfl⟩, fun hinv b hb => hinv b hb⟩
    | some raw =>
      simp only []
      by_cases hempty : jsTrim (jsToLower raw) = ""
      · rw [if_pos hempty]
        exact ⟨fun _ => ⟨rfl, rfl⟩, fun hinv b hb => hinv b hb⟩
      · rw [if_neg hempty]
        by_cases hreg : emailTest (jsTrim (jsToLower raw)) = false
        · rw [if_pos hreg]
          exact ⟨fun _ => ⟨rfl, rfl⟩, fun hinv b hb => hinv b hb⟩
        · rw [if_neg hreg]
          by_cases hex : events.any (fun e => e.id == eid) = false
          · rw [if_pos hex]
            exact ⟨fun _ => ⟨rfl, rfl⟩, fun hinv b hb => hinv b hb⟩
          · rw [if_neg hex]
            have hany : events.any (fun e => e.id == eid) = true := by
              revert hex
              cases events.any (fun e => e.id == eid) <;> simp
            obtain ⟨e, hemem, heid⟩ := List.any_eq_true.mp hany
            have heid' : e.id = eid := by simpa using heid
            constructor
            · intro hno
              exact absurd heid' (hno eid rfl e hemem)
            · intro hinv b hb
              rcases List.mem_append.mp hb with hold | hnew
              · exact hinv b hold
              · have hb' : b = ⟨eid, jsTrim (jsToLower raw)⟩ :=
                  List.mem_singleton.mp hnew
                rw [hb']
                exact ⟨e, hemem, heid'⟩

/-- Witness for C6: booking against an empty event store errors and
persists nothing. -/
theorem bookingSave_referential_integrity_witness :
    (bookingSave [] [] ⟨some 5, some "a@b.c"⟩).error.isSome = true ∧
    (bookingSave [] [] ⟨some 5, some "a@b.c"⟩).bookings = [] := by
  exact (bookingSave_referential_integrity [] [] ⟨some 5, some "a@b.c"⟩).1
    (by intro eid _ e he; cases he)

/-- C7: every Booking persisted by a successful save carries the
lowercased, trimmed form of the submitted email, and that stored email
passes the email-format validator and is a fixed point of lowercasing and
trimming; an email whose normalised form fails the validator is rejected
at save time with the store unchanged. -/
theorem bookingSave_email_valid :
    ∀ (events : List StoredEvent) (bookings : List StoredBooking)
      (input : BookingInput),
      ((bookingSave events bookings input).error = none →
        ∃ raw b, input.email = some raw ∧
          (bookingSave events bookings input).bookings = bookings ++ [b] ∧
          b.email = jsTrim (jsToLower raw) ∧
          emailTest b.email = true ∧
          jsToLower b.email = b.email ∧ jsTrim b.email = b.email) ∧
      (∀ raw, input.email = some raw →
        emailTest (jsTrim (jsToLower raw)) = false →
        (bookingSave events bookings input).error.isSome = true ∧
        (bookingSave events bookings input).bookings = bookings) := by
  intro events bookings input
  unfold bookingSave
  cases hid : input.eventId with
  | none =>
    exact And.intro (fun herr => nomatch herr) (fun raw hraw hreg => And.intro rfl rfl)
  | some eid =>
    simp only []
    cases hem : input.email with
    | none =>
      exact And.intro (fun herr => nomatch herr) (fun raw hraw hreg => And.intro rfl rfl)
    | some raw0 =>
      simp only []
      by_cases hempty : jsTrim (jsToLower raw0) = ""
      · rw [if_pos hempty]
        exact And.intro (fun herr => nomatch herr) (fun raw hraw hreg => And.intro rfl rfl)
      · rw [if_neg hempty]
        by_cases hreg : emailTest (jsTrim (jsToLower raw0)) = false
        · rw [if_pos hreg]
          exact And.intro (fun herr => nomatch herr) (fun raw hraw hreg2 => And.intro rfl rfl)
        · rw [if_neg hreg]
          have htest : emailTest (jsTrim (jsToLower raw0)) = true := by
            revert hreg
            cases emailTest (jsTrim (jsToLower raw0)) <;> simp
          by_cases hex : events.any (fun e => e.id == eid) = false
          · rw [if_pos hex]
            exact And.intro (fun herr => nomatch herr) (fun raw hraw hreg2 => And.intro rfl rfl)
          · rw [if_neg hex]
            constructor
            · intro _
              refine ⟨raw0, ⟨eid, jsTrim (jsToLower raw0)⟩, rfl, rfl, rfl,
                htest, ?_, ?_⟩
              · rw [jsToLower_jsTrim, jsToLower_idem]
              · exact jsTrim_eq_self_of_no_ws (emailTest_no_ws htest)
            · intro raw hraw hreg2
              cases hraw
              exact absurd hreg2 hreg

/-- Witness for C7: a successful booking stores the normalised email, and
an invalid email is rejected. -/
theorem bookingSave_email_valid_witness :
    (∃ raw b, (⟨some 1, some " John.Doe@Example.com "⟩ : BookingInput).email = some raw ∧
      (bookingSave [sampleStoredDup] [] ⟨some 1, some " John.Doe@Example.com "⟩).bookings
        = [] ++ [b] ∧
      b.email = jsTrim (jsToLower raw) ∧ emailTest b.email = true ∧
      jsToLower b.email = b.email ∧ jsTrim b.email = b.email) ∧
    (bookingSave [sampleStoredDup] [] ⟨some 1, some "not an email"⟩).error.isSome = true := by
  constructor
  · exact (bookingSave_email_valid [sampleStoredDup] []
      ⟨some 1, some " John.Doe@Example.com "⟩).1 (by decide)
  · exact ((bookingSave_email_valid [sampleStoredDup] []
      ⟨some 1, some "not an email"⟩).2 "not an email" rfl (by decide)).1

end DevEvents
